import Mathlib

/-!
Verification of the slick-sheet template/compile pipeline.

The Rust sources are embedded shallowly:

* `src/template/parser.rs` — the parser walks a `&str` with a byte-offset
  cursor; every `&self.input[self.pos..]` slice panics when the offset is not
  a UTF-8 character boundary.  We therefore embed the parser over the UTF-8
  byte list of the input (`List Nat`, each byte < 256), model every slice /
  `current_char` access with an explicit boundary check, and surface a Rust
  panic as the `PResult.panic` outcome.  The `while` loop of `parse_nodes`
  can fail to consume input, so that loop (and only that loop) is given
  explicit fuel; running out of fuel is the `PResult.diverge` outcome.  All
  scanning loops strictly advance the cursor and are embedded with a byte
  budget of `input.length - pos`, which makes them structurally recursive.
* `src/template/engine.rs` — embedded over Lean `String`s; hash maps become
  association lists with `List.lookup`.
* `src/world/mod.rs` — the Typst compiler itself is external to the
  repository; its outcome (`Result<Document, Vec<SourceDiagnostic>>`) and the
  `typst_svg::svg` serializer are parameters of the embedding.  `f64` page
  coordinates are modelled as exact rationals.
-/

/-! ## UTF-8 byte model -/

/-- UTF-8 encoding of one scalar value (mirrors what Rust stores in a `str`). -/
def char_utf8 (c : Char) : List Nat :=
  let n := c.toNat
  if n < 128 then [n]
  else if n < 2048 then [192 + n / 64, 128 + n % 64]
  else if n < 65536 then [224 + n / 4096, 128 + n / 64 % 64, 128 + n % 64]
  else [240 + n / 262144, 128 + n / 4096 % 64, 128 + n / 64 % 64, 128 + n % 64]

/-- The UTF-8 bytes of a string, i.e. the Rust `str` a template arrives as. -/
def str_to_bytes (s : String) : List Nat :=
  (s.data.map char_utf8).flatten

/-- Byte at offset `pos` (0 beyond the end, like an unreachable default). -/
def byteAt (input : List Nat) (pos : Nat) : Nat :=
  input.getD pos 0

/-- A UTF-8 continuation byte `0b10xxxxxx`. -/
def isContinuationByte (b : Nat) : Bool :=
  128 ≤ b && b < 192

/-- Rust `str::is_char_boundary` for a valid UTF-8 byte list: the end of the
string or a position holding a non-continuation byte.  (Rust also special-cases
index 0, which agrees with this on valid UTF-8 where byte 0 is never a
continuation byte.) -/
def is_char_boundary (input : List Nat) (pos : Nat) : Bool :=
  if pos = input.length then true
  else if pos < input.length then ! isContinuationByte (byteAt input pos)
  else false

/-- Decode the first scalar value of a byte list (garbage on invalid UTF-8,
which a Rust `str` cannot contain); 0 for the empty list, mirroring the
`unwrap_or('\0')` in `Parser::current_char`. -/
def decode_first_cp : List Nat → Nat
  | [] => 0
  | b :: rest =>
    if b < 128 then b
    else if b < 192 then b
    else if b < 224 then (b - 192) * 64 + (byteAt rest 0 - 128)
    else if b < 240 then
      (b - 224) * 4096 + (byteAt rest 0 - 128) * 64 + (byteAt rest 1 - 128)
    else
      (b - 240) * 262144 + (byteAt rest 0 - 128) * 4096
        + (byteAt rest 1 - 128) * 64 + (byteAt rest 2 - 128)

/-- Byte length of the UTF-8 sequence led by byte `b` (1 on junk, for progress). -/
def utf8_len (b : Nat) : Nat :=
  if b < 128 then 1 else if b < 192 then 1 else if b < 224 then 2
  else if b < 240 then 3 else 4

/-- Decode a byte list back to characters; the first argument is a step budget
that `bytes_to_string` instantiates with the list length. -/
def bytes_to_chars : Nat → List Nat → List Char
  | 0, _ => []
  | _, [] => []
  | k + 1, b :: rest =>
    Char.ofNat (decode_first_cp (b :: rest))
      :: bytes_to_chars k ((b :: rest).drop (utf8_len b))

/-- Decode a byte list to a `String` (models Rust's `&str → String` on slices,
which for the valid-UTF-8 slices the parser takes is the identity on text). -/
def bytes_to_string (l : List Nat) : String :=
  ⟨bytes_to_chars l.length l⟩

/-- Rust `char::is_whitespace` (the Unicode `White_Space` property), on a
scalar value. -/
def is_rust_whitespace (c : Nat) : Bool :=
  (9 ≤ c && c ≤ 13) || c == 32 || c == 133 || c == 160 || c == 5760
    || (8192 ≤ c && c ≤ 8202) || c == 8232 || c == 8233 || c == 8239
    || c == 8287 || c == 12288

/-- Rust `str::trim` (strip Unicode whitespace from both ends). -/
def rust_trim (s : String) : String :=
  ⟨((s.data.dropWhile fun c => is_rust_whitespace c.toNat).reverse.dropWhile
      fun c => is_rust_whitespace c.toNat).reverse⟩

/-- Rust `str::split('.')`: split on every dot, keeping empty pieces. -/
def split_dot_aux : List Char → List Char → List String
  | [], cur => [⟨cur.reverse⟩]
  | c :: rest, cur =>
    if c.toNat = 46 then ⟨cur.reverse⟩ :: split_dot_aux rest []
    else split_dot_aux rest (c :: cur)

/-- Rust `path_str.split('.')` as a list of strings. -/
def split_dot (s : String) : List String :=
  split_dot_aux s.data []

/-! ## Parser data types (`src/template/parser.rs`) -/

/-- `TemplateNode` from `parser.rs`.  `var` is Rust's `Variable { path, default }`,
`cond` is `Conditional { path, then_branch, else_branch }`, `loop` is
`Loop { path, body }`. -/
inductive TemplateNode where
  | text : String → TemplateNode
  | var : List String → Option String → TemplateNode
  | cond : List String → List TemplateNode → List TemplateNode → TemplateNode
  | loop : List String → List TemplateNode → TemplateNode

/-- `ParseError` from `parser.rs`.  `invalidSyn` is Rust's
`InvalidSyntax { message, position }`. -/
inductive ParseError where
  | unclosedTag : String → Nat → ParseError
  | unexpectedClosingTag : String → String → ParseError
  | invalidSyn : String → Nat → ParseError
  | emptyVariableName : Nat → ParseError
deriving DecidableEq, Repr

/-- The `Display` implementation for `ParseError`. -/
def error_message : ParseError → String
  | ParseError.unclosedTag tag position =>
    "Unclosed tag \x27" ++ tag ++ "\x27 at position " ++ toString position
  | ParseError.unexpectedClosingTag expected found =>
    "Expected closing tag \x27" ++ expected ++ "\x27, found \x27" ++ found ++ "\x27"
  | ParseError.invalidSyn message position =>
    "Invalid syntax at position " ++ toString position ++ ": " ++ message
  | ParseError.emptyVariableName position =>
    "Empty variable name at position " ++ toString position

/-- Outcome of running a piece of the Rust parser: a value, an `Err`, a Rust
panic (out-of-bounds / non-boundary slice), or non-termination (loop fuel
exhausted — the Rust code would still be running). -/
inductive PResult (α : Type) where
  | ok : α → PResult α
  | err : ParseError → PResult α
  | panic : PResult α
  | diverge : PResult α
deriving DecidableEq, Repr

def PResult.bind : PResult α → (α → PResult β) → PResult β
  | PResult.ok a, f => f a
  | PResult.err e, _ => PResult.err e
  | PResult.panic, _ => PResult.panic
  | PResult.diverge, _ => PResult.diverge

instance : Monad PResult where
  pure := PResult.ok
  bind := PResult.bind

@[simp] theorem PResult.bind_ok (a : α) (f : α → PResult β) :
    PResult.bind (PResult.ok a) f = f a := rfl
@[simp] theorem PResult.bind_err (e : ParseError) (f : α → PResult β) :
    PResult.bind (PResult.err e) f = PResult.err e := rfl
@[simp] theorem PResult.bind_panic (f : α → PResult β) :
    PResult.bind PResult.panic f = PResult.panic := rfl
@[simp] theorem PResult.bind_diverge (f : α → PResult β) :
    PResult.bind PResult.diverge f = PResult.diverge := rfl
@[simp] theorem PResult.monad_bind_eq (x : PResult α) (f : α → PResult β) :
    x >>= f = PResult.bind x f := rfl
@[simp] theorem PResult.pure_eq (a : α) : (pure a : PResult α) = PResult.ok a := rfl

/-! ## Parser cursor primitives

`Parser` in Rust is `{ input: &str, pos: usize }`; `pos` is a byte offset.
Every primitive below models one cursor operation together with the panic it
can raise. -/

/-- `Parser::remaining`, i.e. `&self.input[self.pos..]`: panics when `pos` is
not a character boundary. -/
def remaining_at (input : List Nat) (pos : Nat) : PResult (List Nat) :=
  if is_char_boundary input pos then PResult.ok (input.drop pos)
  else PResult.panic

/-- `self.remaining().starts_with(pat)` for a pattern given as UTF-8 bytes. -/
def starts_with_at (input : List Nat) (pos : Nat) (pat : List Nat) : PResult Bool :=
  PResult.bind (remaining_at input pos) fun r => PResult.ok (pat.isPrefixOf r)

/-- `Parser::current_char`: `self.input[self.pos..].chars().next().unwrap_or('\0')`,
as a scalar value. -/
def current_char (input : List Nat) (pos : Nat) : PResult Nat :=
  PResult.bind (remaining_at input pos) fun r => PResult.ok (decode_first_cp r)

/-- A Rust `&self.input[a..b]` slice: panics unless `a ≤ b` and both ends are
character boundaries. -/
def slice_bytes (input : List Nat) (a b : Nat) : PResult (List Nat) :=
  if a ≤ b && is_char_boundary input a && is_char_boundary input b then
    PResult.ok ((input.drop a).take (b - a))
  else PResult.panic

/-- `self.input[a..b].to_string()`. -/
def slice_str (input : List Nat) (a b : Nat) : PResult String :=
  PResult.bind (slice_bytes input a b) fun l => PResult.ok (bytes_to_string l)

/-- The shape shared by the parser's character-scanning loops
(`while self.pos < self.input.len() { let c = self.current_char(); if stop c
break; self.pos += 1 }`); `k` is a byte budget instantiated with
`input.length - pos`, making the loop structurally recursive (the Rust loop
advances `pos` every iteration). -/
def scan_while_aux (input : List Nat) (stop : Nat → Bool) : Nat → Nat → PResult Nat
  | 0, pos => PResult.ok pos
  | k + 1, pos =>
    if pos < input.length then
      PResult.bind (current_char input pos) fun c =>
        if stop c then PResult.ok pos else scan_while_aux input stop k (pos + 1)
    else PResult.ok pos

/-- Run a scanning loop from `pos`, returning the final cursor position. -/
def scan_until (input : List Nat) (stop : Nat → Bool) (pos : Nat) : PResult Nat :=
  scan_while_aux input stop (input.length - pos) pos

/-- `Parser::skip_whitespace`. -/
def skip_whitespace (input : List Nat) (pos : Nat) : PResult Nat :=
  scan_until input (fun c => ! is_rust_whitespace c) pos

/-- Bytes of `"{{"`. -/
def open_marker : List Nat := [123, 123]
/-- Bytes of `"}}"`. -/
def close_marker : List Nat := [125, 125]
/-- Bytes of the `"{{else}}"` marker. -/
def else_marker : List Nat := [123, 123, 101, 108, 115, 101, 125, 125]
/-- Bytes of the `"{{/if}}"` marker. -/
def end_if_marker : List Nat := [123, 123, 47, 105, 102, 125, 125]
/-- Bytes of the `"{{/each}}"` marker. -/
def end_each_marker : List Nat := [123, 123, 47, 101, 97, 99, 104, 125, 125]
/-- Bytes of `"default:"`. -/
def default_colon : List Nat := [100, 101, 102, 97, 117, 108, 116, 58]

theorem open_marker_eq : open_marker = str_to_bytes "\x7b\x7b" := rfl
theorem close_marker_eq : close_marker = str_to_bytes "\x7d\x7d" := rfl
theorem else_marker_eq : else_marker = str_to_bytes "\x7b\x7belse\x7d\x7d" := rfl
theorem end_if_marker_eq : end_if_marker = str_to_bytes "\x7b\x7b/if\x7d\x7d" := rfl
theorem end_each_marker_eq : end_each_marker = str_to_bytes "\x7b\x7b/each\x7d\x7d" := rfl
theorem default_colon_eq : default_colon = str_to_bytes "default:" := rfl

/-- `Parser::parse_text`'s loop: advance until end of input or a `"{{"`
marker; `k` is the byte budget as in `scan_while_aux`. -/
def parse_text_aux (input : List Nat) : Nat → Nat → PResult Nat
  | 0, pos => PResult.ok pos
  | k + 1, pos =>
    if pos < input.length then
      PResult.bind (starts_with_at input pos open_marker) fun b =>
        if b then PResult.ok pos else parse_text_aux input k (pos + 1)
    else PResult.ok pos

/-- `Parser::parse_text`: the scanned text and the new cursor position. -/
def parse_text (input : List Nat) (pos : Nat) : PResult (String × Nat) :=
  PResult.bind (parse_text_aux input (input.length - pos) pos) fun stop =>
    PResult.bind (slice_str input pos stop) fun t => PResult.ok (t, stop)

/-- `Parser::parse_default_value`: the optional default literal and the new
cursor position.  Mirrors the Rust control flow exactly, including returning
`None` with the cursor already advanced, and accepting an unterminated quoted
literal by consuming to the end of input. -/
def parse_default_value (input : List Nat) (pos : Nat) : PResult (Option String × Nat) := do
  let b ← starts_with_at input pos [124]
  if ! b then return (none, pos) else
  let pos := pos + 1
  let pos ← skip_whitespace input pos
  let b ← starts_with_at input pos default_colon
  if ! b then return (none, pos) else
  let pos := pos + 8
  let pos ← skip_whitespace input pos
  let quote ← current_char input pos
  if quote ≠ 39 ∧ quote ≠ 34 then return (none, pos) else
  let pos := pos + 1
  let default_start := pos
  let stop ← scan_until input (fun c => c == quote) pos
  let value ← slice_str input default_start stop
  let pos := if stop < input.length then stop + 1 else stop
  return (some value, pos)

/-- `Parser::parse_variable` (`tag_start` is the position of the opening
`"{{"`, `pos` the cursor just past it). -/
def parse_variable (input : List Nat) (tag_start pos : Nat) :
    PResult (Option TemplateNode × Nat) := do
  let pos ← skip_whitespace input pos
  let var_start := pos
  let stop ← scan_until input
    (fun c => c == 125 || c == 124 || is_rust_whitespace c) pos
  let path_str ← slice_str input var_start stop
  let path_str := rust_trim path_str
  let path := (split_dot path_str).filter fun s => ! s.isEmpty
  if path.isEmpty then
    PResult.err ( ParseError.emptyVariableName var_start)
  else do
    let pos ← skip_whitespace input stop
    let dv ← parse_default_value input pos
    let pos ← skip_whitespace input dv.2
    let b ← starts_with_at input pos close_marker
    if ! b then
      PResult.err
        ( ParseError.invalidSyn "Expected \x27\x7d\x7d\x27 to close variable tag" tag_start)
    else return (some (TemplateNode.var path dv.1), pos + 2)

/-- Type of the re-entry point handed to the block-tag parsers: it is
`Parser::parse_nodes` applied to the residual fuel (end tags, cursor ↦
nodes and new cursor).  The mutual recursion of the Rust source is broken
this way so that the only recursive definition is `parse_nodes` itself,
structurally recursive on its fuel. -/
abbrev PN : Type := List (List Nat) → Nat → PResult (List TemplateNode × Nat)

/-- `Parser::parse_if_block`. -/
def parse_if_block_with (pn : PN) (input : List Nat) (path : List String)
    (tag_start pos : Nat) : PResult (Option TemplateNode × Nat) := do
  let tb ← pn [else_marker, end_if_marker] pos
  let bElse ← starts_with_at input tb.2 else_marker
  let eb ← if bElse then pn [end_if_marker] (tb.2 + 8) else pure ([], tb.2)
  let bEnd ← starts_with_at input eb.2 end_if_marker
  if ! bEnd then PResult.err ( ParseError.unclosedTag "if" tag_start)
  else return (some (TemplateNode.cond path tb.1 eb.1), eb.2 + 7)

/-- `Parser::parse_each_block`. -/
def parse_each_block_with (pn : PN) (input : List Nat) (path : List String)
    (tag_start pos : Nat) : PResult (Option TemplateNode × Nat) := do
  let body ← pn [end_each_marker] pos
  let bEnd ← starts_with_at input body.2 end_each_marker
  if ! bEnd then PResult.err ( ParseError.unclosedTag "each" tag_start)
  else return (some (TemplateNode.loop path body.1), body.2 + 9)

/-- `Parser::parse_block_tag`.  Note the Rust error message is built with
`format!("Expected '}}' after block tag '{}'", …)`, in which `}}` is the
escape for a single literal brace, so the message contains one `}`. -/
def parse_block_tag_with (pn : PN) (input : List Nat) (tag_start pos : Nat) :
    PResult (Option TemplateNode × Nat) := do
  let pos ← skip_whitespace input pos
  let type_start := pos
  let stop ← scan_until input (fun c => is_rust_whitespace c || c == 125) pos
  let block_type ← slice_str input type_start stop
  let pos ← skip_whitespace input stop
  let path_start := pos
  let stop2 ← scan_until input (fun c => c == 125 || is_rust_whitespace c) pos
  let path_str ← slice_str input path_start stop2
  let path := split_dot (rust_trim path_str)
  let pos ← skip_whitespace input stop2
  let b ← starts_with_at input pos close_marker
  if ! b then
    PResult.err
      ( ParseError.invalidSyn
        ("Expected \x27\x7d\x27 after block tag \x27" ++ block_type ++ "\x27") pos)
  else
    let pos := pos + 2
    if block_type = "if" then parse_if_block_with pn input path tag_start pos
    else if block_type = "each" then parse_each_block_with pn input path tag_start pos
    else PResult.err ( ParseError.invalidSyn ("Unknown block type: " ++ block_type) type_start)

/-- `Parser::parse_tag` (`tag_start` is the cursor at the `"{{"`). -/
def parse_tag_with (pn : PN) (input : List Nat) (tag_start : Nat) :
    PResult (Option TemplateNode × Nat) := do
  let pos := tag_start + 2
  let pos ← skip_whitespace input pos
  let bHash ← starts_with_at input pos [35]
  if bHash then parse_block_tag_with pn input tag_start (pos + 1)
  else do
    let bSlash ← starts_with_at input pos [47]
    if bSlash then return (none, tag_start)
    else parse_variable input tag_start pos

/-- The `for end_tag in end_tags { if self.remaining().starts_with(end_tag) … }`
check at the top of `Parser::parse_nodes`. -/
def end_tag_hit (input : List Nat) (pos : Nat) : List (List Nat) → PResult Bool
  | [] => PResult.ok false
  | t :: rest =>
    PResult.bind (starts_with_at input pos t) fun b =>
      if b then PResult.ok true else end_tag_hit input pos rest

/-- `Parser::parse_nodes`: the `while self.pos < self.input.len()` loop, with
one unit of fuel per iteration (the Rust loop is *not* guaranteed to consume
input, see `parse_tag`'s closing-tag branch, so the fuel is genuine).  `acc`
is the `nodes` accumulator. -/
def parse_nodes (input : List Nat) :
    Nat → List (List Nat) → Nat → List TemplateNode → PResult (List TemplateNode × Nat)
  | 0, _, _, _ => PResult.diverge
  | fuel + 1, end_tags, pos, acc =>
    if pos < input.length then
      PResult.bind (end_tag_hit input pos end_tags) fun hit =>
        if hit then PResult.ok (acc, pos)
        else
          PResult.bind (starts_with_at input pos open_marker) fun isTag =>
            if isTag then
              PResult.bind
                (parse_tag_with (fun et p => parse_nodes input fuel et p []) input pos)
                fun r =>
                  match r with
                  | (some node, pos2) => parse_nodes input fuel end_tags pos2 (acc ++ [node])
                  | (none, pos2) => parse_nodes input fuel end_tags pos2 acc
            else
              PResult.bind (parse_text input pos) fun t =>
                parse_nodes input fuel end_tags t.2
                  (if t.1.isEmpty then acc else acc ++ [TemplateNode.text t.1])
    else PResult.ok (acc, pos)

/-- `parse_template`. -/
def parse_template (fuel : Nat) (input : List Nat) : PResult (List TemplateNode) :=
  PResult.bind (parse_nodes input fuel [] 0 []) fun r => PResult.ok r.1

/-! ## Data model (`src/data/schema.rs`)

Rust `HashMap<String, String>` fields are modelled as association lists read
through `List.lookup`; the code only ever calls `get`, `contains_key` and
`is_empty` on them. -/

/-- `SectionType`. -/
inductive SectionType where
  | text : SectionType
  | list : SectionType
  | table : SectionType
  | quote : SectionType
deriving DecidableEq, Repr

/-- `Section`. -/
structure Section where
  heading : String
  content : String
  section_type : SectionType
  items : Option (List String)
  rows : Option (List (List String))
  columns : Option Nat
deriving DecidableEq, Repr

/-- `Stat`. -/
structure Stat where
  value : String
  label : String
  color : Option String
deriving DecidableEq, Repr

/-- `ContactInfo`. -/
structure ContactInfo where
  email : Option String
  phone : Option String
  website : Option String
  address : Option String
deriving DecidableEq, Repr

/-- `StyleHints`. -/
structure StyleHints where
  primary_color : Option String
  accent_color : Option String
  font_family : Option String
deriving DecidableEq, Repr

/-- `SlickSheetData`. -/
structure SlickSheetData where
  title : String
  subtitle : Option String
  body : String
  sections : List Section
  metadata : List (String × String)
  features : List String
  stats : List Stat
  contact : Option ContactInfo
  style : Option StyleHints
  images : List (String × String)
deriving DecidableEq, Repr

/-- `SlickSheetData::default()`, with `..Default::default()` semantics. -/
def default_data : SlickSheetData :=
  ⟨"", none, "", [], [], [], [], none, none, []⟩

/-! ## Renderer (`src/template/engine.rs`) -/

/-- `LoopContext` (the `parent` back-reference is carried but, as in the Rust
source, never read). -/
inductive LoopContext where
  | mk : String → Nat → Option LoopContext → LoopContext

/-- The `item` field of a `LoopContext`. -/
def LoopContext.item : LoopContext → String
  | LoopContext.mk i _ _ => i

/-- The `index` field of a `LoopContext`. -/
def LoopContext.index : LoopContext → Nat
  | LoopContext.mk _ n _ => n

/-- `TemplateEngine::resolve_simple_path`. -/
def resolve_simple_path (key : String) (data : SlickSheetData) : Option String :=
  if key = "title" then some data.title
  else if key = "subtitle" then data.subtitle
  else if key = "body" then some data.body
  else data.metadata.lookup key

/-- `TemplateEngine::resolve_nested_path`. -/
def resolve_nested_path (path : List String) (data : SlickSheetData) : Option String :=
  match path with
  | first :: second :: _ =>
    if first = "style" then
      match data.style with
      | none => none
      | some style =>
        if second = "primaryColor" ∨ second = "primary_color" then style.primary_color
        else if second = "accentColor" ∨ second = "accent_color" then style.accent_color
        else if second = "fontFamily" ∨ second = "font_family" then style.font_family
        else none
    else if first = "contact" then
      match data.contact with
      | none => none
      | some contact =>
        if second = "email" then contact.email
        else if second = "phone" then contact.phone
        else if second = "website" then contact.website
        else if second = "address" then contact.address
        else none
    else if first = "stats" then
      if second = "length" then some (toString data.stats.length) else none
    else if first = "sections" then
      if second = "length" then some (toString data.sections.length) else none
    else if first = "features" then
      if second = "length" then some (toString data.features.length) else none
    else if first = "images" then data.images.lookup second
    else none
  | _ => none

/-- `TemplateEngine::resolve_path`. -/
def resolve_path (path : List String) (data : SlickSheetData)
    (loop_context : Option LoopContext) : Option String :=
  match path with
  | [] => none
  | first :: _ =>
    if first = "this" then loop_context.map fun ctx => ctx.item
    else if first = "@index" then loop_context.map fun ctx => toString ctx.index
    else if path.length = 1 then resolve_simple_path first data
    else resolve_nested_path path data

/-- `TemplateEngine::is_path_truthy`. -/
def is_path_truthy (path : List String) (data : SlickSheetData)
    (loop_context : Option LoopContext) : Bool :=
  match path with
  | [] => false
  | first :: rest =>
    if first = "sections" then ! data.sections.isEmpty
    else if first = "features" then ! data.features.isEmpty
    else if first = "stats" then ! data.stats.isEmpty
    else if first = "subtitle" then
      match data.subtitle with
      | some s => ! s.isEmpty
      | none => false
    else if first = "contact" then data.contact.isSome
    else if first = "style" then data.style.isSome
    else if first = "images" then
      match rest with
      | [] => ! data.images.isEmpty
      | second :: _ => (data.images.lookup second).isSome
    else
      match resolve_path path data loop_context with
      | some v => ! v.isEmpty
      | none => false

/-- `TemplateEngine::section_to_string`. -/
def section_to_string (sec : Section) : String :=
  match sec.section_type with
  | SectionType.text => sec.heading ++ ": " ++ sec.content
  | SectionType.list =>
    sec.heading ++ ": ["
      ++ ((sec.items.map fun i => String.intercalate ", " i).getD "") ++ "]"
  | SectionType.table => sec.heading ++ ": <table>"
  | SectionType.quote => sec.heading ++ ": \"" ++ sec.content ++ "\""

/-- `TemplateEngine::resolve_array`. -/
def resolve_array (path : List String) (data : SlickSheetData)
    (_loop_context : Option LoopContext) : List String :=
  match path with
  | [] => []
  | first :: _ =>
    if first = "features" then data.features
    else if first = "sections" then data.sections.map section_to_string
    else if first = "stats" then data.stats.map fun s => s.value ++ ": " ++ s.label
    else []

/-- The reserved characters of `TemplateEngine::escape_typst`
(`@ < > [ ] # $ * _ \`), by scalar value. -/
def typst_reserved (n : Nat) : Bool :=
  n == 64 || n == 60 || n == 62 || n == 91 || n == 93 || n == 35 || n == 36
    || n == 42 || n == 95 || n == 92

/-- One arm of the `match` in `TemplateEngine::escape_typst`: each reserved
character is pushed as a backslash followed by itself, everything else is
pushed unchanged. -/
def escape_typst_char (c : Char) : List Char :=
  if typst_reserved c.toNat then [Char.ofNat 92, c] else [c]

/-- `TemplateEngine::escape_typst`. -/
def escape_typst (s : String) : String :=
  ⟨(s.data.map escape_typst_char).flatten⟩

/-- Concatenate the `(output, errors)` pairs produced for a run of nodes, in
order — the pure counterpart of the Rust renderer pushing onto its two `&mut`
accumulators. -/
def join_out (l : List (String × List String)) : String × List String :=
  (String.join (l.map fun p => p.1), (l.map fun p => p.2).flatten)

/-- `TemplateEngine::render_nodes` / `render_loop`, per node.  The Rust
`for node in nodes` loop appends to `output`/`errors`; here each node yields
its own `(output, errors)` contribution and a run of nodes is `join_out` of
the per-node contributions.  `render_loop` is inlined into the
`TemplateNode.loop` arm (`List.enum` supplies Rust's `enumerate` index, and
each iteration renders the body under a fresh `LoopContext` layered over the
parent, exactly as in the source). -/
def render_node : TemplateNode → SlickSheetData → Option LoopContext → String × List String
  | TemplateNode.text t, _, _ => (t, [])
  | TemplateNode.var path dflt, data, ctx =>
    let value := resolve_path path data ctx
    let rendered := (value.orElse fun _ => dflt).getD ""
    let is_image_ref := path.head? == some "images"
    if is_image_ref then (rendered, []) else (escape_typst rendered, [])
  | TemplateNode.cond path then_branch else_branch, data, ctx =>
    if is_path_truthy path data ctx then
      join_out (then_branch.attach.map fun nh => render_node nh.1 data ctx)
    else
      join_out (else_branch.attach.map fun nh => render_node nh.1 data ctx)
  | TemplateNode.loop path body, data, ctx =>
    join_out (((resolve_array path data ctx).enum).map fun p =>
      join_out (body.attach.map fun nh =>
        render_node nh.1 data (some (LoopContext.mk p.2 p.1 ctx))))
termination_by node => sizeOf node
decreasing_by
  all_goals
    simp only [TemplateNode.cond.sizeOf_spec, TemplateNode.loop.sizeOf_spec]
    have := List.sizeOf_lt_of_mem nh.2
    omega

/-- `TemplateEngine::render_nodes` on a node list. -/
def render_nodes (nodes : List TemplateNode) (data : SlickSheetData)
    (loop_context : Option LoopContext) : String × List String :=
  join_out (nodes.map fun n => render_node n data loop_context)

/-- `TemplateEngine::render`'s result type (`Result<String, Vec<String>>`),
extended with the panic / divergence outcomes the parsing phase can raise. -/
inductive RResult where
  | ok : String → RResult
  | err : List String → RResult
  | panic : RResult
  | diverge : RResult
deriving DecidableEq, Repr

/-- `TemplateEngine::render`: parse, map a parse error to a singleton message
list, then render with empty accumulators and no loop context. -/
def render (fuel : Nat) (template : List Nat) (data : SlickSheetData) : RResult :=
  match parse_template fuel template with
  | PResult.ok nodes =>
    let r := render_nodes nodes data none
    if r.2.isEmpty then RResult.ok r.1 else RResult.err r.2
  | PResult.err e => RResult.err [error_message e]
  | PResult.panic => RResult.panic
  | PResult.diverge => RResult.diverge

/-! ## Evaluation and invariant lemmas for the renderer -/

theorem attach_map_eval (l : List α) (f : α → β) :
    (l.attach.map fun x => f x.1) = l.map f := by
  simp [List.map_attach, List.pmap_eq_map]

theorem render_node_text (t : String) (d : SlickSheetData) (c : Option LoopContext) :
    render_node (TemplateNode.text t) d c = (t, []) := by
  simp [render_node]

theorem render_node_var (path : List String) (dflt : Option String) (d : SlickSheetData) (c : Option LoopContext) :
    render_node (TemplateNode.var path dflt) d c =
      (let rendered := ((resolve_path path d c).orElse fun _ => dflt).getD ""
       if path.head? == some "images" then (rendered, []) else (escape_typst rendered, [])) := by
  simp [render_node]

theorem render_node_cond (path : List String) (tb eb : List TemplateNode) (d : SlickSheetData) (c : Option LoopContext) :
    render_node (TemplateNode.cond path tb eb) d c =
      if is_path_truthy path d c then render_nodes tb d c else render_nodes eb d c := by
  rw [render_node, render_nodes, render_nodes,
    attach_map_eval tb (fun n => render_node n d c),
    attach_map_eval eb (fun n => render_node n d c)]

theorem render_node_loop (path : List String) (body : List TemplateNode) (d : SlickSheetData) (c : Option LoopContext) :
    render_node (TemplateNode.loop path body) d c =
      join_out (((resolve_array path d c).enum).map fun p =>
        render_nodes body d (some (LoopContext.mk p.2 p.1 c))) := by
  rw [render_node]
  simp only [render_nodes]
  congr 1
  refine List.map_congr_left fun p _ => ?_
  rw [attach_map_eval body (fun n => render_node n d (some (LoopContext.mk p.2 p.1 c)))]

theorem render_node_errors (n : TemplateNode) (d : SlickSheetData) (c : Option LoopContext) :
    (render_node n d c).2 = [] := by
  induction n, d, c using render_node.induct with
  | case1 t data ctx => rw [render_node_text]
  | case2 path dflt data ctx _ _ => rw [render_node_var]; split <;> rfl
  | case3 path dflt data ctx _ _ => rw [render_node_var]; split <;> rfl
  | case4 path tb eb data ctx htr ih =>
    rw [render_node_cond, if_pos htr]
    simp only [render_nodes, join_out, List.map_map, List.flatten_eq_nil_iff, List.mem_map]
    rintro l ⟨n, hn, rfl⟩
    exact ih ⟨n, hn⟩
  | case5 path tb eb data ctx htr ih =>
    rw [render_node_cond, if_neg (by simpa using htr)]
    simp only [render_nodes, join_out, List.map_map, List.flatten_eq_nil_iff, List.mem_map]
    rintro l ⟨n, hn, rfl⟩
    exact ih ⟨n, hn⟩
  | case6 path body data ctx ih =>
    rw [render_node_loop]
    simp only [join_out, List.map_map, List.flatten_eq_nil_iff, List.mem_map]
    rintro l ⟨p, hp, rfl⟩
    simp only [Function.comp, render_nodes, join_out, List.map_map, List.flatten_eq_nil_iff,
      List.mem_map]
    rintro l2 ⟨n, hn, rfl⟩
    exact ih p ⟨n, hn⟩

theorem render_nodes_errors (nodes : List TemplateNode) (d : SlickSheetData)
    (c : Option LoopContext) : (render_nodes nodes d c).2 = [] := by
  simp only [render_nodes, join_out, List.map_map, List.flatten_eq_nil_iff, List.mem_map]
  rintro l ⟨n, hn, rfl⟩
  exact render_node_errors n d c

theorem render_ok (fuel : Nat) (tpl : List Nat) (data : SlickSheetData) (nodes : List TemplateNode)
    (h : parse_template fuel tpl = PResult.ok nodes) :
    render fuel tpl data = RResult.ok (render_nodes nodes data none).1 := by
  simp [render, h, render_nodes_errors]

/-! ## World adapter and link projector (`src/world/mod.rs`)

The Typst compiler and `typst_svg::svg` are external crates; the embedding
takes the compiler outcome and the page serializer as parameters and models
the repository's own code around them.  `f64` page coordinates (`Abs::pt`
values) are modelled as exact rationals; `Abs::to_pt` / `Abs::pt` round-trips
are then identities. -/

/-- A point (`typst::layout::Point`), in pt. -/
structure Pt where
  x : Rat
  y : Rat
deriving DecidableEq, Repr

/-- `typst::layout::Transform`: the `[[sx, kx, tx], [ky, sy, ty]]` matrix. -/
structure Tfm where
  sx : Rat
  ky : Rat
  kx : Rat
  sy : Rat
  tx : Rat
  ty : Rat
deriving DecidableEq, Repr

/-- `typst::model::Destination`; only the `Url` payload is ever read by this
repository, so the other variants carry no data here. -/
inductive Destination where
  | url : String → Destination
  | position : Destination
  | location : Destination
deriving DecidableEq, Repr

mutual
/-- `typst::layout::Frame`: a size and positioned items. -/
inductive Frame where
  | mk : Pt → List (Pt × FrameItem) → Frame

/-- `typst::layout::FrameItem`, restricted to what `extract_links_from_frame`
distinguishes: groups (their transform and nested frame are the only fields
read), links, and everything else (text/shape/image/tag — all ignored). -/
inductive FrameItem where
  | group : Tfm → Frame → FrameItem
  | link : Destination → Pt → FrameItem
  | other : FrameItem
end

/-- `Frame::size`. -/
def Frame.size : Frame → Pt
  | Frame.mk sz _ => sz

/-- `Frame::items`. -/
def Frame.items : Frame → List (Pt × FrameItem)
  | Frame.mk _ its => its

/-- `LinkInfo` from `world/mod.rs`. -/
structure LinkInfo where
  x : Rat
  y : Rat
  width : Rat
  height : Rat
  url : String
deriving DecidableEq, Repr

/-- `apply_transform`: only the translation column of the matrix is applied. -/
def apply_transform (pos : Pt) (transform : Tfm) : Pt :=
  ⟨pos.x + transform.tx, pos.y + transform.ty⟩

/-- The `for (pos, item) in frame.items()` loop of `extract_links_from_frame`. -/
def extract_links_items : List (Pt × FrameItem) → Pt → List LinkInfo
  | [], _ => []
  | (pos, item) :: rest, offset =>
    (match item with
     | FrameItem.link (Destination.url url) size =>
       [⟨offset.x + pos.x, offset.y + pos.y, size.x, size.y, url⟩]
     | FrameItem.link _ _ => []
     | FrameItem.group transform (Frame.mk _ gitems) =>
       extract_links_items gitems
         (apply_transform ⟨offset.x + pos.x, offset.y + pos.y⟩ transform)
     | FrameItem.other => []) ++ extract_links_items rest offset

/-- `extract_links_from_frame`. -/
def extract_links_from_frame (frame : Frame) (offset : Pt) : List LinkInfo :=
  match frame with
  | Frame.mk _ items => extract_links_items items offset

/-- `escape_xml`: the five sequential `str::replace` calls, `&` first. -/
def replace_char_with (l : List Char) (c : Char) (r : List Char) : List Char :=
  (l.map fun x => if x = c then r else [x]).flatten

/-- `escape_xml` on a string. -/
def escape_xml (s : String) : String :=
  ⟨replace_char_with
    (replace_char_with
      (replace_char_with
        (replace_char_with
          (replace_char_with s.data (Char.ofNat 38) "&amp;".data)
          (Char.ofNat 60) "&lt;".data)
        (Char.ofNat 62) "&gt;".data)
      (Char.ofNat 34) "&quot;".data)
    (Char.ofNat 39) "&apos;".data⟩

/-- The number formatting used in the overlay `format!`; `f64` `Display` is
modelled by the rational's string form. -/
def num_str (q : Rat) : String := toString q

/-- One `<a …><rect …/></a>` element of the overlay, exactly as `format!`-ted
in `add_links_to_svg`. -/
def link_element (link : LinkInfo) : String :=
  "<a href=\"" ++ escape_xml link.url ++ "\" target=\"_self\"><rect x=\""
    ++ num_str link.x ++ "\" y=\"" ++ num_str link.y ++ "\" width=\""
    ++ num_str link.width ++ "\" height=\"" ++ num_str link.height
    ++ "\" fill=\"transparent\" style=\"cursor: pointer;\" /></a>"

/-- The characters of `"</svg>"`. -/
def close_svg : List Char := "</svg>".data

/-- Rust `str::rfind(pat)` scanning candidate start positions downward from
`i`; `rfind_sub` starts at the haystack length. -/
def rfind_from (hay pat : List Char) : Nat → Option Nat
  | 0 => if pat.isPrefixOf hay then some 0 else none
  | i + 1 =>
    if pat.isPrefixOf (hay.drop (i + 1)) then some (i + 1)
    else rfind_from hay pat i

/-- Rust `str::rfind(pat)`: byte index of the last occurrence.  (The pattern
here is pure ASCII, so byte indices and character indices agree and the model
works on characters.) -/
def rfind_sub (hay pat : List Char) : Option Nat :=
  rfind_from hay pat hay.length

/-- `add_links_to_svg`. -/
def add_links_to_svg (svg : String) (links : List LinkInfo) (_page_size : Pt) : String :=
  if links.isEmpty then svg
  else
    let link_elements := String.join (links.map link_element)
    match rfind_sub svg.data close_svg with
    | some closing_idx =>
      ⟨(svg.data.take closing_idx) ++ link_elements.data ++ close_svg⟩
    | none => svg

/-- `typst::diag::Severity`. -/
inductive Severity where
  | error : Severity
  | warning : Severity
deriving DecidableEq, Repr

/-- `typst::diag::SourceDiagnostic`, restricted to the two fields
`compile_to_svg` reads. -/
structure SourceDiagnostic where
  severity : Severity
  message : String
deriving DecidableEq, Repr

/-- One page of a compiled `typst::model::Document` (only its frame is read). -/
structure Page where
  frame : Frame

/-- `typst::model::Document`, restricted to its page list. -/
structure Document where
  pages : List Page

/-- The severity label used in `compile_to_svg`'s diagnostic formatting. -/
def severity_label : Severity → String
  | Severity.error => "Error"
  | Severity.warning => "Warning"

/-- `VirtualWorld::compile_to_svg`, parameterized by the external compiler's
outcome (`world.compile()`) and by the external serializer `typst_svg::svg`. -/
def compile_to_svg (svgOf : Page → String)
    (compiled : Except (List SourceDiagnostic) Document) : Except (List String) String :=
  match compiled with
  | Except.ok doc =>
    match doc.pages with
    | page :: _ =>
      Except.ok (add_links_to_svg (svgOf page)
        (extract_links_from_frame page.frame ⟨0, 0⟩) page.frame.size)
    | [] => Except.error ["Document has no pages"]
  | Except.error diagnostics =>
    Except.error (diagnostics.map fun d => severity_label d.severity ++ ": " ++ d.message)

/-! ## Claim C1 -/

/-- Claim C1 states that `parse_template` and `TemplateEngine::render` never
panic, for every template string including ones with multi-byte non-ASCII
characters.  The code refutes it: on the two-byte template `"é"`,
`parse_text` advances the byte cursor to offset 1 — the middle of the
character — and the next `remaining()` slice is off a character boundary,
which is a Rust panic.  Both entry points hit it, for every loop fuel, i.e.
no matter how long the program is allowed to run. -/
theorem c1_multibyte_template_panics (fuel : Nat) (data : SlickSheetData) :
    parse_template (fuel + 1) (str_to_bytes "é") = PResult.panic ∧
      render (fuel + 1) (str_to_bytes "é") data = RResult.panic :=
  ⟨rfl, rfl⟩

/-! ## Claim C2 -/

/-- One `parse_nodes` iteration on a top-level `"{{/if}}"` consumes no input:
`parse_tag` sees the closing tag, resets the cursor to the tag start and
returns no node, and the loop re-enters in exactly the same state. -/
theorem parse_nodes_close_if_diverges (fuel : Nat) :
    ∀ acc, parse_nodes (str_to_bytes "\x7b\x7b/if\x7d\x7d") fuel [] 0 acc
      = PResult.diverge := by
  induction fuel with
  | zero => intro acc; rfl
  | succ n ih =>
    intro acc
    show parse_nodes (str_to_bytes "\x7b\x7b/if\x7d\x7d") n [] 0 acc = PResult.diverge
    exact ih acc

/-- Claim C2 states that `parse_template` terminates on every input, in
particular on a top-level `"{{/if}}"`.  The code refutes it: on that input the
`parse_nodes` loop never consumes input and never exits, so the parse runs
out of any finite amount of fuel — the Rust loop runs forever. -/
theorem c2_unmatched_closing_tag_diverges (fuel : Nat) :
    parse_template fuel (str_to_bytes "\x7b\x7b/if\x7d\x7d") = PResult.diverge := by
  cases fuel with
  | zero => rfl
  | succ n =>
    show PResult.bind (parse_nodes (str_to_bytes "\x7b\x7b/if\x7d\x7d") (n + 1) [] 0 [])
      (fun r => PResult.ok r.1) = PResult.diverge
    rw [parse_nodes_close_if_diverges]
    rfl

/-! ## Claim C6 -/

/-- Claim C6: `compile_to_svg` maps a successful compile with zero pages to
exactly `["Document has no pages"]`; a successful compile with at least one
page depends only on the first page; and a failed compile yields one
`"<Severity>: <message>"` string per diagnostic, in the compiler's order,
with the severity rendered `"Error"` or `"Warning"`. -/
theorem c6_compile_to_svg_contract (svgOf : Page → String) (page : Page)
    (rest : List Page) (diags : List SourceDiagnostic) :
    compile_to_svg svgOf (Except.ok ⟨[]⟩) = Except.error ["Document has no pages"]
      ∧ compile_to_svg svgOf (Except.ok ⟨page :: rest⟩)
          = compile_to_svg svgOf (Except.ok ⟨[page]⟩)
      ∧ compile_to_svg svgOf (Except.error diags)
          = Except.error (diags.map fun d => severity_label d.severity ++ ": " ++ d.message)
      ∧ severity_label Severity.error = "Error"
      ∧ severity_label Severity.warning = "Warning" :=
  ⟨rfl, rfl, rfl, rfl, rfl⟩

/-! ## Claim C3 -/

/-- The shape asserted for escaped output: reading left to right, a backslash
is always the start of a two-character escape pair whose second character is a
reserved character, and every character standing alone is non-reserved.
Equivalently, every occurrence of a reserved character in the output is the
payload of exactly one escape character, and escapes do not stack. -/
def properly_escaped : List Char → Bool
  | [] => true
  | c :: rest =>
    if c.toNat = 92 then
      match rest with
      | [] => false
      | c2 :: rest2 => typst_reserved c2.toNat && properly_escaped rest2
    else ! typst_reserved c.toNat && properly_escaped rest

/-- `escape_typst` always produces properly escaped output. -/
theorem escape_typst_properly_escaped (l : List Char) :
    properly_escaped (l.map escape_typst_char).flatten = true := by
  induction l with
  | nil => rfl
  | cons c rest ih =>
    by_cases h : typst_reserved c.toNat
    · have h92 : (Char.ofNat 92).toNat = 92 := by decide
      simp [escape_typst_char, h, properly_escaped, h92, ih]
    · have hne : c.toNat ≠ 92 := by
        intro hc
        rw [hc] at h
        exact h (by decide)
      simp only [escape_typst_char, h, if_false, Bool.false_eq_true, List.map_cons,
        List.flatten_cons, List.singleton_append]
      rw [properly_escaped.eq_def]
      simp [hne, h, ih]

/-- Claim C3: rendering a `Variable` node emits the resolved-or-default value
verbatim when the path's first segment is the literal `images`, and otherwise
emits `escape_typst` of it, whose output is properly escaped: every reserved
character (`@ < > [ ] # $ * _ \`) occurs only as the second character of a
two-character escape pair, i.e. preceded by exactly one escape character. -/
theorem c3_variable_escaping (path : List String) (dflt : Option String)
    (data : SlickSheetData) (ctx : Option LoopContext) :
    (path.head? = some "images" →
      render_node (TemplateNode.var path dflt) data ctx
        = (((resolve_path path data ctx).orElse fun _ => dflt).getD "", []))
    ∧ (path.head? ≠ some "images" →
      render_node (TemplateNode.var path dflt) data ctx
        = (escape_typst (((resolve_path path data ctx).orElse fun _ => dflt).getD ""), [])
      ∧ properly_escaped
          (escape_typst (((resolve_path path data ctx).orElse fun _ => dflt).getD "")).data
          = true) := by
  constructor
  · intro h
    rw [render_node_var]
    simp [h]
  · intro h
    rw [render_node_var]
    constructor
    · simp [h]
    · exact escape_typst_properly_escaped _

/-- Witness for C3, at the spec's own example: `contact.email` holding
`"a@b.com"` renders with the `@` escaped, and the `images` path emits its
attachment id byte-for-byte. -/
theorem c3_variable_escaping_witness :
    render_node (TemplateNode.var ["contact", "email"] none)
        { default_data with contact := some ⟨some "a@b.com", none, none, none⟩ } none
      = ("a\\@b.com", [])
    ∧ render_node (TemplateNode.var ["images", "logo"] none)
        { default_data with images := [("logo", "img_abc123.png")] } none
      = ("img_abc123.png", []) := by
  constructor
  · have h := (c3_variable_escaping ["contact", "email"] none
      { default_data with contact := some ⟨some "a@b.com", none, none, none⟩ } none).2
      (by decide)
    rw [h.1]
    decide
  · have h := (c3_variable_escaping ["images", "logo"] none
      { default_data with images := [("logo", "img_abc123.png")] } none).1 (by decide)
    rw [h]
    decide

/-! ## Claim C7 -/

/-- Claim C7: the truthiness specification of `is_path_truthy`, case by case
on the path's first segment: `sections`/`features`/`stats` are truthy iff the
array is non-empty; `subtitle` iff present and non-empty; `contact`/`style`
iff present; the single-segment `images` iff the image map is non-empty;
`images.<slot>` iff the slot key exists; every other path iff it resolves via
`resolve_path` to a non-empty string. -/
theorem c7_truthiness (first : String) (rest : List String)
    (data : SlickSheetData) (ctx : Option LoopContext) :
    (first = "sections" →
      (is_path_truthy (first :: rest) data ctx = true ↔ data.sections ≠ []))
    ∧ (first = "features" →
      (is_path_truthy (first :: rest) data ctx = true ↔ data.features ≠ []))
    ∧ (first = "stats" →
      (is_path_truthy (first :: rest) data ctx = true ↔ data.stats ≠ []))
    ∧ (first = "subtitle" →
      (is_path_truthy (first :: rest) data ctx = true
        ↔ ∃ s, data.subtitle = some s ∧ s ≠ ""))
    ∧ (first = "contact" →
      (is_path_truthy (first :: rest) data ctx = true ↔ data.contact ≠ none))
    ∧ (first = "style" →
      (is_path_truthy (first :: rest) data ctx = true ↔ data.style ≠ none))
    ∧ (first = "images" → rest = [] →
      (is_path_truthy (first :: rest) data ctx = true ↔ data.images ≠ []))
    ∧ (∀ slot rest2, first = "images" → rest = slot :: rest2 →
      (is_path_truthy (first :: rest) data ctx = true
        ↔ ∃ v, data.images.lookup slot = some v))
    ∧ (first ∉ ["sections", "features", "stats", "subtitle", "contact", "style",
        "images"] →
      (is_path_truthy (first :: rest) data ctx = true
        ↔ ∃ v, resolve_path (first :: rest) data ctx = some v ∧ v ≠ "")) := by
  refine ⟨?_, ?_, ?_, ?_, ?_, ?_, ?_, ?_, ?_⟩
  · rintro rfl
    simp [is_path_truthy, List.isEmpty_iff]
  · rintro rfl
    simp [is_path_truthy, List.isEmpty_iff]
  · rintro rfl
    simp [is_path_truthy, List.isEmpty_iff]
  · rintro rfl
    cases h : data.subtitle with
    | none => simp [is_path_truthy, h]
    | some s =>
      simp [is_path_truthy, h, Bool.eq_false_iff, String.isEmpty_iff]
  · rintro rfl
    cases h : data.contact <;> simp [is_path_truthy, h]
  · rintro rfl
    cases h : data.style <;> simp [is_path_truthy, h]
  · rintro rfl rfl
    simp [is_path_truthy, List.isEmpty_iff]
  · rintro slot rest2 rfl rfl
    cases h : data.images.lookup slot <;> simp [is_path_truthy, h]
  · intro hne
    simp only [List.mem_cons, List.not_mem_nil, or_false] at hne
    push_neg at hne
    obtain ⟨h1, h2, h3, h4, h5, h6, h7⟩ := hne
    rw [is_path_truthy.eq_def]
    simp only [h1, h2, h3, h4, h5, h6, h7, if_false]
    cases h : resolve_path (first :: rest) data ctx with
    | none => simp [h]
    | some v => simp [h, Bool.eq_false_iff, String.isEmpty_iff]

/-- Witness for C7: the spec's own example — `subtitle` is falsy when absent
and truthy when present and non-empty. -/
theorem c7_truthiness_witness :
    is_path_truthy ["subtitle"] default_data none = false
    ∧ is_path_truthy ["subtitle"]
        { default_data with subtitle := some "Amazing" } none = true := by
  constructor
  · have h := ((c7_truthiness "subtitle" [] default_data none).2.2.2.1 rfl)
    by_contra hc
    simp only [Bool.not_eq_false] at hc
    obtain ⟨s, hs, _⟩ := h.mp hc
    simp [default_data] at hs
  · exact ((c7_truthiness "subtitle" []
      { default_data with subtitle := some "Amazing" } none).2.2.2.1 rfl).mpr
      ⟨"Amazing", rfl, by decide⟩

/-! ## Claim C5 -/

/-- Claim C5: `render` returns `Err` only when `parse_template` returns a
`ParseError`, and then the error list is exactly the singleton of that
error's message; whenever the template parses, `render` returns `Ok` for
every content record (the renderer's error accumulator is provably never
pushed to — unresolved paths degrade to the default or the empty string, see
`render_node`). -/
theorem c5_render_error_contract (fuel : Nat) (template : List Nat)
    (data : SlickSheetData) :
    (∀ errs, render fuel template data = RResult.err errs →
      ∃ e, parse_template fuel template = PResult.err e ∧ errs = [error_message e])
    ∧ (∀ nodes, parse_template fuel template = PResult.ok nodes →
      render fuel template data = RResult.ok (render_nodes nodes data none).1) := by
  constructor
  · intro errs herr
    cases hp : parse_template fuel template with
    | ok nodes =>
      rw [render_ok fuel template data nodes hp] at herr
      exact absurd herr (by simp)
    | err e =>
      refine ⟨e, rfl, ?_⟩
      rw [render, hp] at herr
      cases herr
      rfl
    | panic => rw [render, hp] at herr; cases herr
    | diverge => rw [render, hp] at herr; cases herr
  · intro nodes hp
    exact render_ok fuel template data nodes hp

/-- Witness for C5: both directions at concrete inputs — a parse error
(`"{{#if x}}y"` is unclosed) surfaces as the singleton message list, and a
parsing template renders to `Ok` on the default record. -/
theorem c5_render_error_contract_witness :
    render 10 (str_to_bytes "\x7b\x7b#if x\x7d\x7dy") default_data
      = RResult.err ["Unclosed tag \x27if\x27 at position 0"]
    ∧ render 10 (str_to_bytes "hi") default_data = RResult.ok "hi" := by
  constructor
  · rfl
  · have h := (c5_render_error_contract 10 (str_to_bytes "hi") default_data).2
      [TemplateNode.text "hi"] rfl
    rw [h]
    simp only [render_nodes, render_node_text, join_out, List.map_cons, List.map_nil]
    decide

/-! ## Cursor lemmas for ASCII regions -/

theorem drop_cons_byteAt (l : List Nat) (j : Nat) (h : j < l.length) :
    l.drop j = byteAt l j :: l.drop (j + 1) := by
  rw [byteAt, List.getD_eq_getElem l 0 h]
  exact List.drop_eq_getElem_cons h

theorem is_char_boundary_length (input : List Nat) :
    is_char_boundary input input.length = true := by
  simp [is_char_boundary]

theorem is_char_boundary_ascii (input : List Nat) (j : Nat)
    (hj : j < input.length) (hb : byteAt input j < 128) :
    is_char_boundary input j = true := by
  rw [is_char_boundary, if_neg (Nat.ne_of_lt hj), if_pos hj]
  simp only [isContinuationByte, Bool.not_eq_true', Bool.and_eq_false_iff,
    decide_eq_false_iff_not, not_le, not_lt]
  omega

theorem current_char_ascii (input : List Nat) (j : Nat)
    (hj : j < input.length) (hb : byteAt input j < 128) :
    current_char input j = PResult.ok (byteAt input j) := by
  rw [current_char, remaining_at, if_pos (is_char_boundary_ascii input j hj hb),
    PResult.bind_ok, drop_cons_byteAt input j hj]
  simp [decode_first_cp, hb]

theorem starts_with_at_boundary (input pat : List Nat) (j : Nat)
    (h : is_char_boundary input j = true) :
    starts_with_at input j pat = PResult.ok (pat.isPrefixOf (input.drop j)) := by
  rw [starts_with_at, remaining_at, if_pos h, PResult.bind_ok]

theorem starts_with_at_ascii (input pat : List Nat) (j : Nat)
    (hj : j < input.length) (hb : byteAt input j < 128) :
    starts_with_at input j pat = PResult.ok (pat.isPrefixOf (input.drop j)) :=
  starts_with_at_boundary input pat j (is_char_boundary_ascii input j hj hb)

theorem starts_with_at_length (input pat : List Nat) :
    starts_with_at input input.length pat = PResult.ok (pat.isPrefixOf []) := by
  rw [starts_with_at_boundary input pat input.length (is_char_boundary_length input),
    List.drop_length]

/-- Full characterisation of a scanning loop over an ASCII region: it stops
exactly at `q` when every position strictly before `q` holds a non-stopping
ASCII byte and `q` is the end of input or a stopping ASCII byte. -/
theorem scan_while_spec (input : List Nat) (stop : Nat → Bool) :
    ∀ k pos q, pos ≤ q → q ≤ pos + k →
    (∀ j, pos ≤ j → j < q →
      j < input.length ∧ byteAt input j < 128 ∧ stop (byteAt input j) = false) →
    (q = input.length
      ∨ (q < input.length ∧ byteAt input q < 128 ∧ stop (byteAt input q) = true)) →
    scan_while_aux input stop k pos = PResult.ok q := by
  intro k
  induction k with
  | zero =>
    intro pos q h1 h2 _ _
    have : pos = q := by omega
    subst this
    rfl
  | succ n ih =>
    intro pos q h1 h2 h3 h4
    rcases eq_or_lt_of_le h1 with rfl | hlt
    · rcases h4 with rfl | ⟨hq, hb, hs⟩
      · simp only [scan_while_aux]
        rw [if_neg (lt_irrefl _)]
      · simp only [scan_while_aux]
        rw [if_pos hq, current_char_ascii input pos hq hb, PResult.bind_ok, if_pos hs]
    · have hstep := h3 pos le_rfl hlt
      simp only [scan_while_aux]
      rw [if_pos hstep.1, current_char_ascii input pos hstep.1 hstep.2.1,
        PResult.bind_ok, hstep.2.2]
      simp only [Bool.false_eq_true, if_false]
      exact ih (pos + 1) q hlt (by omega) (fun j hj1 hj2 => h3 j (by omega) hj2) h4

/-- A scanning loop that starts on its stopping condition returns at once. -/
theorem scan_until_stop (input : List Nat) (stop : Nat → Bool) (pos : Nat)
    (h : pos = input.length
      ∨ (pos < input.length ∧ byteAt input pos < 128 ∧ stop (byteAt input pos) = true)) :
    scan_until input stop pos = PResult.ok pos :=
  scan_while_spec input stop (input.length - pos) pos pos le_rfl (by omega)
    (fun _ h1 h2 => absurd (lt_of_le_of_lt h1 h2) (lt_irrefl _)) h

/-- A scanning loop over an all-ASCII never-stopping region runs to the end
of input. -/
theorem scan_until_to_end (input : List Nat) (stop : Nat → Bool) (pos : Nat)
    (hle : pos ≤ input.length)
    (h : ∀ j, pos ≤ j → j < input.length →
      byteAt input j < 128 ∧ stop (byteAt input j) = false) :
    scan_until input stop pos = PResult.ok input.length :=
  scan_while_spec input stop (input.length - pos) pos input.length hle (by omega)
    (fun j hj1 hj2 => ⟨hj2, (h j hj1 hj2).1, (h j hj1 hj2).2⟩) (Or.inl rfl)

/-- One step of a scanning loop over a non-stopping ASCII byte. -/
theorem scan_until_step (input : List Nat) (stop : Nat → Bool) (pos : Nat)
    (hj : pos < input.length) (hb : byteAt input pos < 128)
    (hs : stop (byteAt input pos) = false) :
    scan_until input stop pos = scan_until input stop (pos + 1) := by
  rw [scan_until, scan_until]
  have hk : input.length - pos = (input.length - (pos + 1)) + 1 := by omega
  rw [hk]
  simp only [scan_while_aux]
  rw [if_pos hj, current_char_ascii input pos hj hb, PResult.bind_ok, hs]
  simp

theorem skip_ws_at_length (input : List Nat) :
    skip_whitespace input input.length = PResult.ok input.length :=
  scan_until_stop _ _ _ (Or.inl rfl)

theorem skip_ws_stop (input : List Nat) (pos b : Nat) (hb : byteAt input pos = b)
    (hlt : pos < input.length) (hb128 : b < 128) (hws : is_rust_whitespace b = false) :
    skip_whitespace input pos = PResult.ok pos := by
  apply scan_until_stop
  right
  refine ⟨hlt, by omega, ?_⟩
  show (! is_rust_whitespace (byteAt input pos)) = true
  rw [hb, hws]
  rfl

theorem skip_ws_step (input : List Nat) (pos b : Nat) (hb : byteAt input pos = b)
    (hlt : pos < input.length) (hb128 : b < 128) (hws : is_rust_whitespace b = true) :
    skip_whitespace input pos = skip_whitespace input (pos + 1) := by
  apply scan_until_step input _ pos hlt (by omega)
  show (! is_rust_whitespace (byteAt input pos)) = false
  rw [hb, hws]
  rfl

/-! ## Claim C4 -/

/-- Counterexample to claim C4 as stated: on the claim's own input shape
(`"{{x | default: \"abc}}"` — a default literal opened with a quote and never
terminated), `parse_template` does *not* succeed with no default; the
unterminated literal swallows the rest of the input (including the `}}`) and
the parser then fails with `InvalidSyntax` at the tag start. -/
theorem c4_unterminated_default_counterexample :
    parse_template 1 (str_to_bytes "\x7b\x7bx | default: \x22abc\x7d\x7d")
      = PResult.err
        ( ParseError.invalidSyn "Expected \x27\x7d\x7d\x27 to close variable tag" 0) :=
  rfl

/-- Amended claim C4: for every variable tag of the form `{{x | default: <q><rest>`
whose default literal is opened with either quote character `<q>` (`\x27` or `"`)
and never terminated before the end of the input, the remainder `<rest>` being
ASCII text containing no closing quote, `parse_default_value` raises no error
for the unterminated literal — it consumes the remainder of the input as the
default value — but the enclosing variable tag then fails the closing-`}}`
check, so `parse_template` returns
`InvalidSyntax "Expected \x27}}\x27 to close variable tag"` at the tag start
rather than succeeding with no default; with a non-ASCII remainder the
byte-wise literal scan instead panics (second conjunct, on `{{x | default: "é`),
the same cursor slip as C1, so no tag with an unterminated default ever
parses successfully.  Both parts hold at every loop fuel. -/
theorem c4_unterminated_default_amended (fuel : Nat) (q : Nat) (lit : List Nat)
    (hquote : q = 34 ∨ q = 39)
    (hascii : ∀ b ∈ lit, b < 128) (hq : ∀ b ∈ lit, b ≠ q) :
    parse_template (fuel + 1) (str_to_bytes "\x7b\x7bx | default: " ++ q :: lit)
        = PResult.err
          ( ParseError.invalidSyn "Expected \x27\x7d\x7d\x27 to close variable tag" 0)
      ∧ parse_template (fuel + 1) (str_to_bytes "\x7b\x7bx | default: \x22é")
        = PResult.panic := by
  refine ⟨?_, rfl⟩
  set input := str_to_bytes "\x7b\x7bx | default: " ++ q :: lit with hinput
  have hq128 : q < 128 := by rcases hquote with rfl | rfl <;> omega
  have hqws : is_rust_whitespace q = false := by rcases hquote with rfl | rfl <;> rfl
  have happ : input = (str_to_bytes "\x7b\x7bx | default: " ++ [q]) ++ lit := by
    rw [hinput, List.append_assoc]
    rfl
  have hl1 : (str_to_bytes "\x7b\x7bx | default: " ++ [q]).length = 16 := by
    rw [List.length_append]
    rfl
  have hlen : input.length = 16 + lit.length := by
    rw [happ, List.length_append, hl1]
  have hb0 : byteAt input 0 = 123 := rfl
  have hb2 : byteAt input 2 = 120 := rfl
  have hb3 : byteAt input 3 = 32 := rfl
  have hb4 : byteAt input 4 = 124 := rfl
  have hb5 : byteAt input 5 = 32 := rfl
  have hb6 : byteAt input 6 = 100 := rfl
  have hb14 : byteAt input 14 = 32 := rfl
  have hb15 : byteAt input 15 = q := rfl
  -- skip_whitespace results
  have hsw2 : skip_whitespace input 2 = PResult.ok 2 :=
    skip_ws_stop input 2 120 hb2 (by omega) (by omega) rfl
  have hsw3 : skip_whitespace input 3 = PResult.ok 4 := by
    rw [skip_ws_step input 3 32 hb3 (by omega) (by omega) rfl]
    exact skip_ws_stop input 4 124 hb4 (by omega) (by omega) rfl
  have hsw5 : skip_whitespace input 5 = PResult.ok 6 := by
    rw [skip_ws_step input 5 32 hb5 (by omega) (by omega) rfl]
    exact skip_ws_stop input 6 100 hb6 (by omega) (by omega) rfl
  have hsw14 : skip_whitespace input 14 = PResult.ok 15 := by
    rw [skip_ws_step input 14 32 hb14 (by omega) (by omega) rfl]
    exact skip_ws_stop input 15 q hb15 (by omega) hq128 hqws
  -- the variable-path scan: stops on the whitespace at 3
  have hvscan : scan_until input
      (fun c => c == 125 || c == 124 || is_rust_whitespace c) 2 = PResult.ok 3 := by
    rw [scan_until_step input _ 2 (by omega) (by rw [hb2]; omega) (by rw [hb2]; rfl)]
    exact scan_until_stop input _ 3 (Or.inr ⟨by omega, by rw [hb3]; omega, by rw [hb3]; rfl⟩)
  -- slicing out the path "x"
  have hslice23 : slice_str input 2 3 = PResult.ok "x" := by
    have hc : (decide (2 ≤ 3) && is_char_boundary input 2 && is_char_boundary input 3)
        = true := by
      rw [is_char_boundary_ascii input 2 (by omega) (by rw [hb2]; omega),
        is_char_boundary_ascii input 3 (by omega) (by rw [hb3]; omega)]
      rfl
    rw [slice_str, slice_bytes, if_pos hc]
    rfl
  -- the unterminated default literal: scan to end of input
  have hdscan : scan_until input (fun c => c == q) 16 = PResult.ok input.length := by
    apply scan_until_to_end
    · omega
    · intro j hj1 hj2
      have hbj : byteAt input j = byteAt lit (j - 16) := by
        rw [happ, byteAt, byteAt, List.getD_append_right]
        · rw [hl1]
        · rw [hl1]; exact hj1
      have hjlt : j - 16 < lit.length := by omega
      have hmem : byteAt lit (j - 16) ∈ lit := by
        rw [byteAt, List.getD_eq_getElem lit 0 hjlt]
        exact List.getElem_mem hjlt
      refine ⟨by rw [hbj]; exact hascii _ hmem, ?_⟩
      show (byteAt input j == q) = false
      rw [hbj]
      exact beq_eq_false_iff_ne.mpr (hq _ hmem)
  have hbd16 : is_char_boundary input 16 = true := by
    by_cases h16 : 16 = input.length
    · rw [h16]; exact is_char_boundary_length input
    · have hlt : 16 < input.length := by omega
      apply is_char_boundary_ascii input 16 hlt
      have hbj : byteAt input 16 = byteAt lit 0 := by
        rw [happ, byteAt, byteAt, List.getD_append_right]
        · rw [hl1]
        · rw [hl1]
      have h0 : 0 < lit.length := by omega
      have hmem : byteAt lit 0 ∈ lit := by
        rw [byteAt, List.getD_eq_getElem lit 0 h0]
        exact List.getElem_mem h0
      rw [hbj]
      exact hascii _ hmem
  have hsliceD : slice_str input 16 input.length
      = PResult.ok (bytes_to_string lit) := by
    have hc : (decide (16 ≤ input.length) && is_char_boundary input 16
        && is_char_boundary input input.length) = true := by
      rw [hbd16, is_char_boundary_length input, decide_eq_true (by omega : 16 ≤ input.length)]
      rfl
    rw [slice_str, slice_bytes, if_pos hc]
    have hdrop : input.drop 16 = lit := by
      rw [happ, ← hl1, List.drop_left]
    rw [hdrop]
    have htake : lit.take (input.length - 16) = lit := by
      rw [hlen]
      simp
    rw [htake]
    rfl
  -- parse_default_value at the `|`
  have hs4 : starts_with_at input 4 [124] = PResult.ok true := by
    rw [starts_with_at_ascii input [124] 4 (by omega) (by rw [hb4]; omega)]
    rfl
  have hs6 : starts_with_at input 6 default_colon = PResult.ok true := by
    rw [starts_with_at_ascii input default_colon 6 (by omega) (by rw [hb6]; omega)]
    rfl
  have hc15 : current_char input 15 = PResult.ok q := by
    rw [current_char_ascii input 15 (by omega) (by rw [hb15]; exact hq128), hb15]
  have hpdv : parse_default_value input 4
      = PResult.ok (some (bytes_to_string lit), input.length) := by
    rw [parse_default_value]
    simp only [PResult.monad_bind_eq, PResult.pure_eq]
    rw [hs4, PResult.bind_ok]
    simp only [Bool.not_true, Bool.false_eq_true, if_false]
    rw [hsw5, PResult.bind_ok, hs6, PResult.bind_ok]
    simp only [Bool.not_true, Bool.false_eq_true, if_false]
    rw [hsw14, PResult.bind_ok, hc15, PResult.bind_ok]
    rw [if_neg (by rcases hquote with rfl | rfl <;> omega : ¬ (q ≠ 39 ∧ q ≠ 34))]
    rw [hdscan, PResult.bind_ok, hsliceD, PResult.bind_ok]
    rw [if_neg (lt_irrefl input.length)]
  -- parse_variable errors at the missing closing braces
  have hswlen : skip_whitespace input input.length = PResult.ok input.length :=
    skip_ws_at_length input
  have hsclose : starts_with_at input input.length close_marker = PResult.ok false := by
    rw [starts_with_at_length input close_marker]
    rfl
  have hpvar : parse_variable input 0 2
      = PResult.err
        ( ParseError.invalidSyn "Expected \x27\x7d\x7d\x27 to close variable tag" 0) := by
    rw [parse_variable]
    simp only [PResult.monad_bind_eq, PResult.pure_eq]
    rw [hsw2, PResult.bind_ok, hvscan, PResult.bind_ok, hslice23, PResult.bind_ok]
    have hpath : (List.filter (fun s => ! s.isEmpty) (split_dot (rust_trim "x"))).isEmpty
        = false := rfl
    rw [hpath]
    simp only [Bool.false_eq_true, if_false]
    rw [hsw3, PResult.bind_ok, hpdv, PResult.bind_ok, hswlen, PResult.bind_ok,
      hsclose, PResult.bind_ok]
    rfl
  -- parse_tag dispatches to parse_variable
  have hs2hash : starts_with_at input 2 [35] = PResult.ok false := by
    rw [starts_with_at_ascii input [35] 2 (by omega) (by rw [hb2]; omega)]
    rfl
  have hs2slash : starts_with_at input 2 [47] = PResult.ok false := by
    rw [starts_with_at_ascii input [47] 2 (by omega) (by rw [hb2]; omega)]
    rfl
  have hptag : ∀ pn : PN, parse_tag_with pn input 0
      = PResult.err
        ( ParseError.invalidSyn "Expected \x27\x7d\x7d\x27 to close variable tag" 0) := by
    intro pn
    rw [parse_tag_with]
    simp only [PResult.monad_bind_eq, PResult.pure_eq]
    show PResult.bind (skip_whitespace input 2) _ = _
    rw [hsw2, PResult.bind_ok, hs2hash, PResult.bind_ok]
    simp only [Bool.false_eq_true, if_false]
    rw [hs2slash, PResult.bind_ok]
    simp only [Bool.false_eq_true, if_false]
    exact hpvar
  -- the top-level loop hits the tag immediately
  have hs0 : starts_with_at input 0 open_marker = PResult.ok true := by
    rw [starts_with_at_ascii input open_marker 0 (by omega) (by rw [hb0]; omega)]
    rfl
  rw [parse_template]
  simp only [parse_nodes]
  rw [if_pos (by omega : 0 < input.length)]
  show PResult.bind (PResult.bind (end_tag_hit input 0 []) _) _ = _
  rw [end_tag_hit, PResult.bind_ok]
  simp only [Bool.false_eq_true, if_false]
  rw [hs0, PResult.bind_ok]
  simp only [if_true]
  rw [hptag _, PResult.bind_err, PResult.bind_err]

/-- Witness for the amended C4, at the claim\x27s own example: the single-quote
character (byte 39) opening the literal content `abc}}` (bytes
`[97, 98, 99, 125, 125]`), at fuel 1. -/
theorem c4_unterminated_default_amended_witness :
    parse_template 1 (str_to_bytes "\x7b\x7bx | default: " ++ 39 :: [97, 98, 99, 125, 125])
        = PResult.err
          ( ParseError.invalidSyn "Expected \x27\x7d\x7d\x27 to close variable tag" 0)
      ∧ parse_template 1 (str_to_bytes "\x7b\x7bx | default: \x22é")
        = PResult.panic :=
  c4_unterminated_default_amended 0 39 [97, 98, 99, 125, 125] (Or.inr rfl)
    (by decide) (by decide)

/-! ## Claim C10 -/

/-- `"{{"` occurs nowhere in a byte list (consecutive bytes 123, 123). -/
def no_double_brace : List Nat → Bool
  | [] => true
  | [_] => true
  | a :: b :: rest => ! (a == 123 && b == 123) && no_double_brace (b :: rest)

theorem no_double_brace_tail (a : Nat) (t : List Nat)
    (h : no_double_brace (a :: t) = true) : no_double_brace t = true := by
  cases t with
  | nil => rfl
  | cons b t2 =>
    rw [no_double_brace, Bool.and_eq_true] at h
    exact h.2

theorem no_double_brace_not_prefix (l : List Nat) (h : no_double_brace l = true) :
    ∀ j, open_marker.isPrefixOf (l.drop j) = false := by
  induction l with
  | nil => intro j; rw [List.drop_nil]; rfl
  | cons a t ih =>
    intro j
    cases j with
    | succ j' =>
      rw [List.drop_succ_cons]
      exact ih (no_double_brace_tail a t h) j'
    | zero =>
      rw [List.drop_zero]
      cases t with
      | nil => simp [open_marker, List.isPrefixOf]
      | cons b t2 =>
        rw [no_double_brace, Bool.and_eq_true] at h
        have h2 : (a == 123 && b == 123) = false := by
          have h1 := h.1
          cases hx : (a == 123 && b == 123)
          · rfl
          · rw [hx] at h1; simp at h1
        by_cases ha : a = 123
        · subst ha
          by_cases hb : b = 123
          · subst hb
            simp at h2
          · show ((123 == 123) && ((123 == b) && List.isPrefixOf ([] : List Nat) t2)) = false
            rw [beq_eq_false_iff_ne.mpr fun hh => hb hh.symm]
            simp
        · show ((123 == a) && ((123 == b) && List.isPrefixOf ([] : List Nat) t2)) = false
          rw [beq_eq_false_iff_ne.mpr fun hh => ha hh.symm]
          simp

theorem parse_text_to_end (input : List Nat) :
    ∀ k pos, pos ≤ input.length → input.length ≤ pos + k →
    (∀ j, j < input.length → byteAt input j < 128) →
    (∀ j, open_marker.isPrefixOf (input.drop j) = false) →
    parse_text_aux input k pos = PResult.ok input.length := by
  intro k
  induction k with
  | zero =>
    intro pos h1 h2 _ _
    have : pos = input.length := by omega
    subst this
    rfl
  | succ n ih =>
    intro pos h1 h2 hascii hnb
    by_cases hp : pos < input.length
    · simp only [parse_text_aux]
      rw [if_pos hp, starts_with_at_ascii input open_marker pos hp (hascii pos hp),
        PResult.bind_ok, hnb pos]
      simp only [Bool.false_eq_true, if_false]
      exact ih (pos + 1) hp (by omega) hascii hnb
    · have hpe : pos = input.length := by omega
      subst hpe
      simp only [parse_text_aux]
      rw [if_neg hp]

/-- ASCII characters encode to their single code-point byte. -/
theorem bytes_of_ascii_chars (l : List Char) (h : ∀ c ∈ l, c.toNat < 128) :
    (l.map char_utf8).flatten = l.map Char.toNat := by
  induction l with
  | nil => rfl
  | cons c t ih =>
    have hc := h c (List.mem_cons_self c t)
    simp only [List.map_cons, List.flatten_cons]
    rw [char_utf8]
    simp only [if_pos hc]
    rw [List.singleton_append, ih fun x hx => h x (List.mem_cons_of_mem c hx)]

/-- Decoding inverts ASCII encoding. -/
theorem bytes_to_chars_ascii (l : List Char) (h : ∀ c ∈ l, c.toNat < 128) :
    ∀ k, l.length ≤ k → bytes_to_chars k (l.map Char.toNat) = l := by
  induction l with
  | nil => intro k _; cases k <;> rfl
  | cons c t ih =>
    intro k hk
    have hc := h c (List.mem_cons_self c t)
    cases k with
    | zero => simp at hk
    | succ n =>
      simp only [List.map_cons, bytes_to_chars]
      rw [show decode_first_cp (c.toNat :: t.map Char.toNat) = c.toNat by
          simp [decode_first_cp, hc],
        show utf8_len c.toNat = 1 by simp [utf8_len, hc],
        Char.ofNat_toNat, List.drop_one, List.tail_cons,
        ih (fun x hx => h x (List.mem_cons_of_mem c hx)) n (by simpa using hk)]

/-- `bytes_to_string` inverts `str_to_bytes` on ASCII strings. -/
theorem bytes_to_string_roundtrip (s : String) (h : ∀ c ∈ s.data, c.toNat < 128) :
    bytes_to_string (str_to_bytes s) = s := by
  rw [str_to_bytes, bytes_of_ascii_chars s.data h, bytes_to_string, List.length_map,
    bytes_to_chars_ascii s.data h s.data.length le_rfl]

/-- Counterexample to claim C10 as stated: the template `"é"` contains no
`"{{"` marker, yet `render` does not return `Ok` of it for the default
record — it panics (byte-wise cursor advance inside the two-byte character),
at this and, by `c1_multibyte_template_panics`' argument, every fuel. -/
theorem c10_literal_roundtrip_counterexample :
    no_double_brace (str_to_bytes "é") = true
      ∧ render 1 (str_to_bytes "é") default_data = RResult.panic :=
  ⟨rfl, rfl⟩

/-- Amended claim C10: for every template string that contains no `"{{"`
marker *and consists of ASCII (single-byte) characters only*, and every
content record, `render` returns `Ok` of exactly the input template string. -/
theorem c10_ascii_literal_roundtrip (fuel : Nat) (s : String) (data : SlickSheetData)
    (hascii : ∀ c ∈ s.data, c.toNat < 128)
    (hnb : no_double_brace (str_to_bytes s) = true) :
    render (fuel + 2) (str_to_bytes s) data = RResult.ok s := by
  set input := str_to_bytes s with hinput
  have hmap : input = s.data.map Char.toNat := by
    rw [hinput, str_to_bytes, bytes_of_ascii_chars s.data hascii]
  have hbytes : ∀ j, j < input.length → byteAt input j < 128 := by
    intro j hj
    have hmem : byteAt input j ∈ input := by
      rw [byteAt, List.getD_eq_getElem input 0 hj]
      exact List.getElem_mem hj
    rw [hmap] at hmem
    obtain ⟨c, hc, hceq⟩ := List.mem_map.mp hmem
    rw [hmap, ← hceq]
    exact hascii c hc
  have hnp := no_double_brace_not_prefix input hnb
  rcases Nat.eq_zero_or_pos input.length with hz | hpos
  · -- empty template
    have hdata : s.data = [] := by
      rw [hmap] at hz
      simp only [List.length_map] at hz
      exact List.length_eq_zero.mp hz
    have hs : s = "" := by
      cases s
      simp at hdata
      rw [hdata]
    have hinput0 : input = [] := by
      rw [hmap, hdata]
      rfl
    subst hs
    have hparse : parse_template (fuel + 2) input = PResult.ok [] := by
      show PResult.bind (parse_nodes input ((fuel + 1) + 1) [] 0 []) _ = _
      simp only [parse_nodes]
      rw [if_neg (by omega : ¬ 0 < input.length)]
      rfl
    rw [render_ok (fuel + 2) input data [] hparse]
    rfl
  · -- non-empty template: one Text node holding the whole input
    have hsne : s.isEmpty = false := by
      rw [Bool.eq_false_iff]
      intro hcontra
      rw [String.isEmpty_iff] at hcontra
      rw [hcontra] at hmap
      simp at hmap
      rw [hmap] at hpos
      simp at hpos
    have hrt : bytes_to_string input = s := by
      rw [hinput]
      exact bytes_to_string_roundtrip s hascii
    have htext : parse_text input 0 = PResult.ok (s, input.length) := by
      rw [parse_text, parse_text_to_end input (input.length - 0) 0 (by omega) (by omega)
        hbytes hnp, PResult.bind_ok]
      have hc : (decide (0 ≤ input.length) && is_char_boundary input 0
          && is_char_boundary input input.length) = true := by
        rw [is_char_boundary_ascii input 0 hpos (hbytes 0 hpos), is_char_boundary_length,
          decide_eq_true (Nat.zero_le input.length)]
        rfl
      rw [slice_str, slice_bytes, if_pos hc, PResult.bind_ok, List.drop_zero,
        Nat.sub_zero, List.take_length, hrt]
      rfl
    have hs0 : starts_with_at input 0 open_marker = PResult.ok false := by
      rw [starts_with_at_ascii input open_marker 0 hpos (hbytes 0 hpos), hnp 0]
    have hparse : parse_template (fuel + 2) input
        = PResult.ok [TemplateNode.text s] := by
      show PResult.bind (parse_nodes input ((fuel + 1) + 1) [] 0 []) _ = _
      simp only [parse_nodes]
      rw [if_pos hpos]
      rw [show end_tag_hit input 0 [] = PResult.ok false from rfl, PResult.bind_ok]
      simp only [Bool.false_eq_true, if_false]
      rw [hs0, PResult.bind_ok]
      simp only [Bool.false_eq_true, if_false]
      rw [htext, PResult.bind_ok, hsne]
      simp only [Bool.false_eq_true, if_false, List.nil_append]
      rw [if_neg (lt_irrefl input.length)]
      rfl
    rw [render_ok (fuel + 2) input data [TemplateNode.text s] hparse]
    simp only [render_nodes, render_node_text, join_out, List.map_cons, List.map_nil]
    show RResult.ok (String.join [s]) = RResult.ok s
    rw [show String.join [s] = s from by simp [String.join]]


/-- Witness for the amended C10: the literal template `"Hello"` round-trips
on the default record. -/
theorem c10_ascii_literal_roundtrip_witness :
    render 2 (str_to_bytes "Hello") default_data = RResult.ok "Hello" :=
  c10_ascii_literal_roundtrip 0 "Hello" default_data (by decide) (by decide)

/-! ## Claim C8 -/

/-- Componentwise sum of a list of points (zero origin). -/
def sum_pts (l : List Pt) : Pt :=
  l.foldl (fun acc p => ⟨acc.x + p.x, acc.y + p.y⟩) ⟨0, 0⟩

/-- The claim's description of link projection, written from the spec's words
rather than from the code: walk the items keeping the list `enclosing` of
contributions of the enclosing frames (the initial offset, then for each
enclosing group its local offset and — of its transform — only the
translation components `tx`, `ty`); a URL link item is recorded at the sum of
`enclosing` and its own local offset, with size and destination verbatim. -/
def link_projection_spec_items : List (Pt × FrameItem) → List Pt → List LinkInfo
  | [], _ => []
  | (pos, item) :: rest, enclosing =>
    (match item with
     | FrameItem.link (Destination.url url) size =>
       [⟨(sum_pts (enclosing ++ [pos])).x, (sum_pts (enclosing ++ [pos])).y,
         size.x, size.y, url⟩]
     | FrameItem.link _ _ => []
     | FrameItem.group transform (Frame.mk _ gitems) =>
       link_projection_spec_items gitems
         (enclosing ++ [pos, ⟨transform.tx, transform.ty⟩])
     | FrameItem.other => []) ++ link_projection_spec_items rest enclosing

/-- Spec-side projection of a whole frame from an offset. -/
def link_projection_spec (frame : Frame) (offset : Pt) : List LinkInfo :=
  match frame with
  | Frame.mk _ items => link_projection_spec_items items [offset]

/-- The URL links of a tree in traversal order, sizes and destinations only. -/
def url_link_data_items : List (Pt × FrameItem) → List (Pt × String)
  | [] => []
  | (_, item) :: rest =>
    (match item with
     | FrameItem.link (Destination.url url) size => [(size, url)]
     | FrameItem.link _ _ => []
     | FrameItem.group _ (Frame.mk _ gitems) => url_link_data_items gitems
     | FrameItem.other => []) ++ url_link_data_items rest

/-- Rewrite every group transform in a tree with `g` (positions, links and
sizes untouched). -/
def map_items_transforms (g : Tfm → Tfm) : List (Pt × FrameItem) → List (Pt × FrameItem)
  | [] => []
  | (pos, item) :: rest =>
    (pos, match item with
     | FrameItem.group transform (Frame.mk sz gitems) =>
       FrameItem.group (g transform) (Frame.mk sz (map_items_transforms g gitems))
     | it => it) :: map_items_transforms g rest

theorem sum_pts_append_one (parts : List Pt) (p : Pt) :
    sum_pts (parts ++ [p]) = ⟨(sum_pts parts).x + p.x, (sum_pts parts).y + p.y⟩ := by
  rw [sum_pts, sum_pts, List.foldl_append]
  rfl

theorem sum_pts_single (p : Pt) : sum_pts [p] = p := by
  show (⟨0 + p.x, 0 + p.y⟩ : Pt) = p
  cases p
  simp

theorem extract_eq_spec_items :
    ∀ (k : Nat) (items : List (Pt × FrameItem)) (parts : List Pt),
    sizeOf items ≤ k →
    extract_links_items items (sum_pts parts) = link_projection_spec_items items parts := by
  intro k
  induction k with
  | zero =>
    intro items parts hk
    cases items with
    | nil => rw [extract_links_items.eq_def, link_projection_spec_items.eq_def]
    | cons a rest => simp at hk
  | succ n ih =>
    intro items parts hk
    cases items with
    | nil => rw [extract_links_items.eq_def, link_projection_spec_items.eq_def]
    | cons a rest =>
      obtain ⟨pos, item⟩ := a
      rw [extract_links_items.eq_def, link_projection_spec_items.eq_def]
      simp only []
      have hrest : extract_links_items rest (sum_pts parts)
          = link_projection_spec_items rest parts := by
        apply ih
        simp at hk ⊢
        omega
      rw [hrest]
      congr 1
      cases item with
      | link dest size =>
        cases dest with
        | url u => dsimp only; simp [sum_pts_append_one]
        | position => rfl
        | location => rfl
      | other => rfl
      | group transform gframe =>
        cases gframe with
        | mk sz gitems =>
          dsimp only
          have hoff : apply_transform
              ⟨(sum_pts parts).x + pos.x, (sum_pts parts).y + pos.y⟩ transform
              = sum_pts ((parts ++ [pos]) ++ [⟨transform.tx, transform.ty⟩]) := by
            rw [sum_pts_append_one, sum_pts_append_one]
            rfl
          have hl : parts ++ [pos, (⟨transform.tx, transform.ty⟩ : Pt)]
              = (parts ++ [pos]) ++ [⟨transform.tx, transform.ty⟩] := by
            rw [List.append_assoc]
            rfl
          rw [hoff, hl]
          apply ih
          simp at hk ⊢
          omega

theorem extract_map_url_data :
    ∀ (k : Nat) (items : List (Pt × FrameItem)) (offset : Pt),
    sizeOf items ≤ k →
    (extract_links_items items offset).map
        (fun l => ((⟨l.width, l.height⟩ : Pt), l.url))
      = url_link_data_items items := by
  intro k
  induction k with
  | zero =>
    intro items offset hk
    cases items with
    | nil => rw [extract_links_items.eq_def, url_link_data_items.eq_def]; rfl
    | cons a rest => simp at hk
  | succ n ih =>
    intro items offset hk
    cases items with
    | nil => rw [extract_links_items.eq_def, url_link_data_items.eq_def]; rfl
    | cons a rest =>
      obtain ⟨pos, item⟩ := a
      rw [extract_links_items.eq_def, url_link_data_items.eq_def]
      dsimp only
      rw [List.map_append]
      have hrest := ih rest offset (by simp at hk ⊢; omega)
      rw [hrest]
      congr 1
      cases item with
      | link dest size =>
        cases dest with
        | url u => rfl
        | position => rfl
        | location => rfl
      | other => rfl
      | group transform gframe =>
        cases gframe with
        | mk sz gitems =>
          dsimp only
          exact ih gitems _ (by simp at hk ⊢; omega)

theorem extract_transform_invariant :
    ∀ (k : Nat) (items : List (Pt × FrameItem)) (offset : Pt) (g : Tfm → Tfm),
    (∀ t, (g t).tx = t.tx ∧ (g t).ty = t.ty) →
    sizeOf items ≤ k →
    extract_links_items (map_items_transforms g items) offset
      = extract_links_items items offset := by
  intro k
  induction k with
  | zero =>
    intro items offset g hg hk
    cases items with
    | nil => rw [map_items_transforms.eq_def]
    | cons a rest => simp at hk
  | succ n ih =>
    intro items offset g hg hk
    cases items with
    | nil => rw [map_items_transforms.eq_def]
    | cons a rest =>
      obtain ⟨pos, item⟩ := a
      have hrest := ih rest offset g hg (by simp at hk ⊢; omega)
      cases item with
      | link dest size =>
        rw [map_items_transforms.eq_def]
        dsimp only
        rw [extract_links_items.eq_def, extract_links_items.eq_def]
        dsimp only
        rw [hrest]
      | other =>
        rw [map_items_transforms.eq_def]
        dsimp only
        rw [extract_links_items.eq_def, extract_links_items.eq_def]
        dsimp only
        rw [hrest]
      | group transform gframe =>
        cases gframe with
        | mk sz gitems =>
          rw [map_items_transforms.eq_def]
          dsimp only
          rw [extract_links_items.eq_def, extract_links_items.eq_def]
          dsimp only
          rw [hrest, apply_transform, apply_transform, (hg transform).1,
            (hg transform).2]
          congr 1
          exact ih gitems _ g hg (by simp at hk ⊢; omega)

/-- Claim C8: link extraction (a) equals the spec-side walker
`link_projection_spec`, whose recorded position is the sum of the item's
local offset and the per-enclosing-frame contributions (local offset plus
only the `tx`/`ty` translation components of the group transform); (b)
returns one record per URL-destination link item, in traversal order, with
size and destination taken verbatim; and (c) is invariant under arbitrary
changes to the rotation/scale components (`sx ky kx sy`) of every group
transform — they contribute nothing to the recorded positions. -/
theorem c8_link_projection (frame : Frame) (offset : Pt) :
    extract_links_from_frame frame offset = link_projection_spec frame offset
    ∧ (extract_links_from_frame frame offset).map
        (fun l => ((⟨l.width, l.height⟩ : Pt), l.url)) = url_link_data_items frame.items
    ∧ ∀ g : Tfm → Tfm, (∀ t, (g t).tx = t.tx ∧ (g t).ty = t.ty) →
      extract_links_from_frame (Frame.mk frame.size (map_items_transforms g frame.items))
          offset
        = extract_links_from_frame frame offset := by
  cases frame with
  | mk sz items =>
    refine ⟨?_, ?_, ?_⟩
    · show extract_links_items items offset = link_projection_spec_items items [offset]
      have h := extract_eq_spec_items (sizeOf items) items [offset] le_rfl
      rw [sum_pts_single] at h
      exact h
    · exact extract_map_url_data (sizeOf items) items offset le_rfl
    · intro g hg
      exact extract_transform_invariant (sizeOf items) items offset g hg le_rfl

/-- A two-link page frame: one top-level link and one link nested in a group
whose transform both scales and translates. -/
def demo_frame : Frame :=
  Frame.mk ⟨100, 100⟩
    [(⟨1, 2⟩, FrameItem.link (Destination.url "https://a") ⟨10, 5⟩),
     (⟨3, 4⟩, FrameItem.group ⟨2, 0, 0, 2, 7, 8⟩
       (Frame.mk ⟨50, 50⟩
         [(⟨5, 6⟩, FrameItem.link (Destination.url "https://b") ⟨20, 9⟩)]))]

/-- Witness for C8 on `demo_frame`: two records, the nested one at
`(0+3+7+5, 0+4+8+6)`; replacing the group's scale `2` by `0` changes
nothing; and the spec-side walker agrees. -/
theorem c8_link_projection_witness :
    extract_links_from_frame demo_frame ⟨0, 0⟩
        = [⟨1, 2, 10, 5, "https://a"⟩, ⟨15, 18, 20, 9, "https://b"⟩]
    ∧ extract_links_from_frame demo_frame ⟨0, 0⟩ = link_projection_spec demo_frame ⟨0, 0⟩
    ∧ extract_links_from_frame
        (Frame.mk demo_frame.size
          (map_items_transforms (fun t => ⟨0, 0, 0, 0, t.tx, t.ty⟩) demo_frame.items))
        ⟨0, 0⟩
      = extract_links_from_frame demo_frame ⟨0, 0⟩ := by
  refine ⟨?_, (c8_link_projection demo_frame ⟨0, 0⟩).1,
    (c8_link_projection demo_frame ⟨0, 0⟩).2.2 _ fun t => ⟨rfl, rfl⟩⟩
  rw [demo_frame, extract_links_from_frame]
  rw [extract_links_items.eq_def]
  dsimp only
  rw [extract_links_items.eq_def]
  dsimp only
  rw [extract_links_items.eq_def]
  dsimp only
  rw [extract_links_items.eq_def]
  dsimp only
  norm_num [apply_transform]
  rw [extract_links_items.eq_def]

/-! ## Claim C9 -/

/-- Whether `pat` occurs as a contiguous sublist of `hay`. -/
def contains_sub : List Char → List Char → Bool
  | [], pat => pat.isPrefixOf []
  | c :: rest, pat => pat.isPrefixOf (c :: rest) || contains_sub rest pat

theorem contains_sub_false_no_occurrence (hay pat : List Char)
    (h : contains_sub hay pat = false) :
    ∀ j, pat.isPrefixOf (hay.drop j) = false := by
  induction hay with
  | nil =>
    intro j
    rw [List.drop_nil]
    exact h
  | cons c rest ih =>
    intro j
    rw [contains_sub, Bool.or_eq_false_iff] at h
    cases j with
    | zero => rw [List.drop_zero]; exact h.1
    | succ j' => rw [List.drop_succ_cons]; exact ih h.2 j'

theorem rfind_from_none (hay pat : List Char)
    (h : ∀ j, pat.isPrefixOf (hay.drop j) = false) :
    ∀ i, rfind_from hay pat i = none := by
  intro i
  induction i with
  | zero =>
    rw [rfind_from]
    have h0 := h 0
    rw [List.drop_zero] at h0
    rw [h0]
    rfl
  | succ n ih =>
    rw [rfind_from, h (n + 1)]
    simpa using ih

theorem rfind_from_stop (hay pat : List Char) (pos : Nat)
    (hpre : pat.isPrefixOf (hay.drop pos) = true) :
    ∀ k, (∀ j, pos < j → j ≤ pos + k → pat.isPrefixOf (hay.drop j) = false) →
    rfind_from hay pat (pos + k) = some pos := by
  intro k
  induction k with
  | zero =>
    intro _
    cases pos with
    | zero =>
      rw [List.drop_zero] at hpre
      rw [rfind_from, hpre]
      rfl
    | succ p =>
      rw [rfind_from, hpre]
      rfl
  | succ n ih =>
    intro hno
    have : pos + (n + 1) = (pos + n) + 1 := by omega
    rw [this, rfind_from, hno ((pos + n) + 1) (by omega) (by omega)]
    simp only [Bool.false_eq_true, if_false]
    exact ih fun j h1 h2 => hno j h1 (by omega)

theorem close_svg_not_prefix_beyond (a b : List Char)
    (hb : contains_sub b close_svg = false) :
    ∀ j, a.length < j →
      close_svg.isPrefixOf ((a ++ (close_svg ++ b)).drop j) = false := by
  intro j hj
  have hjm : j = a.length + (j - a.length) := by omega
  rw [hjm, List.drop_append (j - a.length)]
  set m := j - a.length with hm
  have hm1 : 1 ≤ m := by omega
  by_cases h6 : m < 6
  · interval_cases m <;> rfl
  · have hdrop : (close_svg ++ b).drop m = b.drop (m - 6) := by
      rw [List.drop_append_eq_append_drop]
      have hcl : close_svg.length = 6 := rfl
      rw [hcl, List.drop_eq_nil_of_le (by omega : close_svg.length ≤ m) ]
      rw [List.nil_append]
    rw [hdrop]
    exact contains_sub_false_no_occurrence b close_svg hb (m - 6)

/-- Amended claim C9: the overlay returns the raw string unchanged when the
link list is empty; when it is non-empty and the string contains a `"</svg>"`
closing tag, the result is the text before the *last* occurrence, then
exactly one anchor element per link record in record order, then `"</svg>"` —
any text after the last closing tag is discarded; and when the string
contains no `"</svg>"` at all, it is returned unchanged with no anchors
inserted. -/
theorem c9_overlay_amended (svg : String) (a b : List Char) (links : List LinkInfo)
    (ps : Pt) :
    add_links_to_svg svg [] ps = svg
    ∧ (links ≠ [] → contains_sub svg.data close_svg = false →
        add_links_to_svg svg links ps = svg)
    ∧ (links ≠ [] → contains_sub b close_svg = false →
        add_links_to_svg ⟨a ++ close_svg ++ b⟩ links ps
          = ⟨a ++ (String.join (links.map link_element)).data ++ close_svg⟩) := by
  refine ⟨?_, ?_, ?_⟩
  · rw [add_links_to_svg]
    simp
  · intro hne hnc
    rw [add_links_to_svg, if_neg (by simpa using hne)]
    rw [rfind_sub, rfind_from_none svg.data close_svg
      (contains_sub_false_no_occurrence _ _ hnc) _]
  · intro hne hnc
    have hfind : rfind_sub (a ++ close_svg ++ b) close_svg = some a.length := by
      rw [rfind_sub]
      have hlen2 : (a ++ close_svg ++ b).length = a.length + (6 + b.length) := by
        simp [close_svg]
        omega
      have happ : a ++ close_svg ++ b = a ++ (close_svg ++ b) := by
        rw [List.append_assoc]
      rw [hlen2, happ]
      apply rfind_from_stop
      · rw [List.drop_left]
        simp [List.isPrefixOf_iff_prefix, List.prefix_append]
      · intro j h1 _
        exact close_svg_not_prefix_beyond a b hnc j h1
    rw [add_links_to_svg, if_neg (by simpa using hne)]
    show (match rfind_sub (a ++ close_svg ++ b) close_svg with
      | some closing_idx =>
        (⟨((a ++ close_svg ++ b).take closing_idx)
          ++ (String.join (links.map link_element)).data ++ close_svg⟩ : String)
      | none => (⟨a ++ close_svg ++ b⟩ : String))
      = (⟨a ++ (String.join (links.map link_element)).data ++ close_svg⟩ : String)
    rw [hfind]
    dsimp only
    have htake : (a ++ close_svg ++ b).take a.length = a := by
      rw [List.append_assoc, List.take_left]
    rw [htake]

/-- A concrete link record for the overlay examples. -/
def demo_link : LinkInfo := ⟨1, 2, 3, 4, "https://x"⟩

/-- Counterexample to claim C9 as stated: with a non-empty record list, (a) a
raw string containing no `"</svg>"` comes back unchanged — zero anchor
elements, not one per record — and (b) on `"ab</svg>tail"` the text after the
insertion point is *not* otherwise unchanged: the trailing `"tail"` is
discarded. -/
theorem c9_overlay_counterexample :
    add_links_to_svg "hello" [demo_link] ⟨0, 0⟩ = "hello"
    ∧ add_links_to_svg "ab</svg>tail" [demo_link] ⟨0, 0⟩
        = "ab" ++ link_element demo_link ++ "</svg>" :=
  ⟨rfl, rfl⟩

/-- Witness for the amended C9 at concrete inputs. -/
theorem c9_overlay_amended_witness :
    add_links_to_svg "" [] ⟨0, 0⟩ = ""
    ∧ add_links_to_svg "hello" [demo_link] ⟨0, 0⟩ = "hello"
    ∧ add_links_to_svg ⟨"ab".data ++ close_svg ++ "tail".data⟩ [demo_link] ⟨0, 0⟩
        = ⟨"ab".data ++ (String.join ([demo_link].map link_element)).data ++ close_svg⟩ := by
  refine ⟨(c9_overlay_amended "" "".data "".data [] ⟨0, 0⟩).1,
    (c9_overlay_amended "hello" "".data "".data [demo_link] ⟨0, 0⟩).2.1
      (by decide) (by decide),
    (c9_overlay_amended "x" "ab".data "tail".data [demo_link] ⟨0, 0⟩).2.2
      (by decide) (by decide)⟩
